import Mathlib

/-!
Verification development for the palserver-map repository.

The definitions below are a shallow embedding of the repository's code:

* the Leaflet coordinate pipeline of `app/components/MapViewer.vue`
  (`worldToMap`, `mapToWorld`, `worldToLeaflet`, `leafletToWorld`),
  with JavaScript numbers modelled as rationals and `Math.round`
  modelled exactly (`jsRound`);
* the marker reconcilers (`syncMapObjectMarkers`, the keyed
  `redrawPlayers`, the clear-and-redraw `redrawPlayers`,
  `redrawMapObjects`) and the visibility filter
  (`updateObjectVisibility`, `toggleType`, the `mapObjects` watcher);
* the OpenSeadragon variant's `drawAllOverlays`;
* the server handlers `server/api/map/objects.get.ts` and the
  `/api/palworld/info` proxy, with filesystem and upstream outcomes
  made explicit parameters.

Theorems about these definitions follow after all definitions.
-/

namespace PalserverMap

/-! ### Coordinate constants of MapViewer.vue (Leaflet variants) -/

def WORLD_MIN_X : ℚ := -999940
def WORLD_MIN_Y : ℚ := -738920
def WORLD_MAX_X : ℚ := 447900
def WORLD_MAX_Y : ℚ := 708920

def TRANSLATION_X : ℚ := 123930
def TRANSLATION_Y : ℚ := 157935

def SCALE : ℚ := 459
def MAP_SIZE : ℚ := 8192

def GAME_MIN_X : ℚ := -1951
def GAME_MIN_Y : ℚ := -1893
def GAME_MAX_X : ℚ := 1198
def GAME_MAX_Y : ℚ := 1243

def MAP_WIDTH : ℚ := GAME_MAX_X - GAME_MIN_X
def MAP_HEIGHT : ℚ := GAME_MAX_Y - GAME_MIN_Y

def TRANSFORM_A : ℚ := MAP_SIZE / MAP_WIDTH
def TRANSFORM_B : ℚ := 5075.45
def TRANSFORM_C : ℚ := -MAP_SIZE / MAP_HEIGHT
def TRANSFORM_D : ℚ := 4960.62

/-- JavaScript `Math.round`: round half toward positive infinity,
which is `⌊x + 1/2⌋`. -/
def jsRound (q : ℚ) : ℤ := ⌊q + 1/2⌋

/-- Embedding of `worldToMap` (MapViewer.vue lines 99-103): world
coordinates to integer map-grid coordinates. -/
def worldToMap (worldX worldY : ℚ) : ℤ × ℤ :=
  (jsRound ((worldY - TRANSLATION_Y) / SCALE),
   jsRound ((worldX + TRANSLATION_X) / SCALE) * (-1))

/-- Embedding of `mapToWorld` (MapViewer.vue lines 105-109). -/
def mapToWorld (mapX mapY : ℚ) : ℚ × ℚ :=
  (mapY * (-1) * SCALE - TRANSLATION_X, mapX * SCALE + TRANSLATION_Y)

/-- Embedding of `worldToLeaflet` (MapViewer.vue lines 111-118); the
result is the `L.latLng(leafletY, leafletX)` pair, i.e. `(lat, lng)`. -/
def worldToLeaflet (worldX worldY : ℚ) : ℚ × ℚ :=
  let mapCoords := worldToMap worldX worldY
  let leafletX := TRANSFORM_A * (mapCoords.1 : ℚ) + TRANSFORM_B
  let leafletY := TRANSFORM_C * (mapCoords.2 : ℚ) + TRANSFORM_D
  (leafletY, leafletX)

/-- Embedding of `leafletToWorld` (MapViewer.vue lines 120-125); the
argument is a `(lat, lng)` pair, the result `(worldX, worldY)`. -/
def leafletToWorld (latlng : ℚ × ℚ) : ℚ × ℚ :=
  let gameX := (latlng.2 - TRANSFORM_B) / TRANSFORM_A
  let gameY := (latlng.1 - TRANSFORM_D) / TRANSFORM_C
  mapToWorld gameX gameY

/-! ### Data model (MapViewer.vue prop types) -/

/-- Embedding of the `Player` prop type of MapViewer.vue. -/
structure Player where
  userId : String
  name : String
  level : Option ℕ
  location_x : ℚ
  location_y : ℚ
  ping : Option ℚ
deriving DecidableEq

/-- Embedding of the `MapObject` prop type of MapViewer.vue. -/
structure MapObject where
  x : ℚ
  y : ℚ
  type : String
  localized_name : Option String
  pal : Option String
  pal_type : Option String
deriving DecidableEq

/-- Composite identity key of a map object: the components spliced into
the key string by `getMapObjectKey` (MapViewer.vue lines 67-69), with
`pal || ''` and `localized_name || ''` modelled by `Option.getD`. -/
abbrev ObjKey := String × ℚ × ℚ × String × String

/-- Embedding of `getMapObjectKey` (MapViewer.vue lines 67-69). -/
def getMapObjectKey (mapObject : MapObject) : ObjKey :=
  (mapObject.type, mapObject.x, mapObject.y,
   mapObject.pal.getD "", mapObject.localized_name.getD "")

/-! ### Object marker reconciler (`syncMapObjectMarkers`, first Leaflet
variant of MapViewer.vue, lines 204-244).

A backend marker object is identified by the `id` it received from a
fresh-id counter, so that creation/destruction of marker objects is
observable in the model.  `objectMarkerByKey` is a JavaScript `Map`,
modelled as an insertion-ordered association list with unique keys. -/

/-- One entry of `objectMarkerByKey`: the Leaflet marker (its identity
and latlng) together with the stored `type`. -/
structure ObjMarker where
  id : ℕ
  type : String
  pos : ℚ × ℚ
deriving DecidableEq

/-- Marker state of the first Leaflet variant: `objectMarkerByKey` plus
a fresh-id counter, plus whether `leaflet.value` and `map.value` are
both non-null (the readiness guard of `syncMapObjectMarkers`). -/
structure ObjSyncState where
  markers : List (ObjKey × ObjMarker)
  nextId : ℕ
  ready : Bool
deriving DecidableEq

/-- Accumulator of the creation loop of `syncMapObjectMarkers`. -/
structure AddAcc where
  markers : List (ObjKey × ObjMarker)
  nextId : ℕ
  created : List ObjKey
deriving DecidableEq

/-- The first loop of `syncMapObjectMarkers` (lines 211-232): walk the
snapshot in order; a key already present in `objectMarkerByKey` is
skipped, otherwise a fresh marker is created and inserted. -/
def addMissing (markers : List (ObjKey × ObjMarker)) (nid : ℕ) :
    List MapObject → AddAcc
  | [] => ⟨markers, nid, []⟩
  | o :: rest =>
    let k := getMapObjectKey o
    if k ∈ markers.map Prod.fst then
      addMissing markers nid rest
    else
      let r := addMissing
        (markers ++ [(k, ⟨nid, o.type, worldToLeaflet o.x o.y⟩)]) (nid + 1) rest
      ⟨r.markers, r.nextId, k :: r.created⟩

/-- Result of one `syncMapObjectMarkers` run: the new state plus the
keys of created markers and of removed (destroyed) markers. -/
structure ObjSyncResult where
  state : ObjSyncState
  created : List ObjKey
  deleted : List ObjKey
deriving DecidableEq

/-- Embedding of `syncMapObjectMarkers` (lines 204-244): no-op unless
Leaflet and the map are initialized; otherwise insert markers for new
keys, then remove every marker whose key is absent from the snapshot. -/
def syncMapObjectMarkers (s : ObjSyncState) (objects : List MapObject) :
    ObjSyncResult :=
  if s.ready then
    let a := addMissing s.markers s.nextId objects
    let nextKeys := objects.map getMapObjectKey
    ⟨⟨a.markers.filter (fun e => decide (e.1 ∈ nextKeys)), a.nextId, s.ready⟩,
     a.created,
     (a.markers.filter (fun e => decide (e.1 ∉ nextKeys))).map Prod.fst⟩
  else ⟨s, [], []⟩

/-! ### Keyed player reconciler (`redrawPlayers`, second Leaflet variant
of MapViewer.vue, lines 668-717): markers keyed by `userId` in
`playerMarkerByUserId`, updated in place on match. -/

/-- One player marker: backend object identity and its latlng. -/
structure PMarker where
  id : ℕ
  pos : ℚ × ℚ
deriving DecidableEq

/-- State of the keyed player reconciler. -/
structure PlayerSyncState where
  markers : List (String × PMarker)
  nextId : ℕ
  ready : Bool
deriving DecidableEq

/-- Accumulator of the upsert loop of the keyed `redrawPlayers`. -/
structure UpsertAcc where
  markers : List (String × PMarker)
  nextId : ℕ
  created : List String
  updated : List String
deriving DecidableEq

/-- The per-player loop of the keyed `redrawPlayers` (lines 677-706):
an existing marker for the `userId` is repositioned in place
(`setLatLng`), otherwise a fresh marker is created and inserted. -/
def upsertPlayers (markers : List (String × PMarker)) (nid : ℕ) :
    List Player → UpsertAcc
  | [] => ⟨markers, nid, [], []⟩
  | p :: rest =>
    if p.userId ∈ markers.map Prod.fst then
      let m' := markers.map (fun e =>
        if e.1 = p.userId then
          (e.1, ⟨e.2.id, worldToLeaflet p.location_x p.location_y⟩)
        else e)
      let r := upsertPlayers m' nid rest
      ⟨r.markers, r.nextId, r.created, p.userId :: r.updated⟩
    else
      let r := upsertPlayers
        (markers ++ [(p.userId, ⟨nid, worldToLeaflet p.location_x p.location_y⟩)])
        (nid + 1) rest
      ⟨r.markers, r.nextId, p.userId :: r.created, r.updated⟩

/-- Result of one keyed `redrawPlayers` run. -/
structure PlayerSyncResult where
  state : PlayerSyncState
  created : List String
  updated : List String
  deleted : List String
deriving DecidableEq

/-- Embedding of the keyed `redrawPlayers` (lines 668-717): no-op
unless ready; upsert every player of the snapshot, then remove markers
of players absent from the snapshot. -/
def redrawPlayersInc (s : PlayerSyncState) (players : List Player) :
    PlayerSyncResult :=
  if s.ready then
    let u := upsertPlayers s.markers s.nextId players
    let nextUserIds := players.map Player.userId
    ⟨⟨u.markers.filter (fun e => decide (e.1 ∈ nextUserIds)), u.nextId, s.ready⟩,
     u.created, u.updated,
     (u.markers.filter (fun e => decide (e.1 ∉ nextUserIds))).map Prod.fst⟩
  else ⟨s, [], [], []⟩

/-! ### Clear-and-redraw player reconciler (`redrawPlayers`, first
Leaflet variant of MapViewer.vue, lines 246-275): `clearLayers()`
destroys every current player marker, then one marker is created per
player of the snapshot. -/

/-- Markers created by the clear-and-redraw loop, with fresh ids. -/
def buildPlayerMarkers (nid : ℕ) : List Player → List (ℕ × ℚ × ℚ)
  | [] => []
  | p :: rest =>
    (nid, worldToLeaflet p.location_x p.location_y) :: buildPlayerMarkers (nid + 1) rest

/-- Result of one clear-and-redraw `redrawPlayers` run: the markers now
on `playersLayer`, the fresh-id counter, and how many markers were
created and destroyed by this run. -/
structure ClearRedrawResult where
  markers : List (ℕ × ℚ × ℚ)
  nextId : ℕ
  created : ℕ
  deleted : ℕ
deriving DecidableEq

/-- Embedding of the clear-and-redraw `redrawPlayers` (lines 246-275):
no-op unless Leaflet, the map and `playersLayer` exist; otherwise
`clearLayers()` destroys all current markers and a marker is created
for every player of the snapshot. -/
def redrawPlayersClear (ready : Bool) (markers : List (ℕ × ℚ × ℚ)) (nid : ℕ)
    (players : List Player) : ClearRedrawResult :=
  if ready then
    ⟨buildPlayerMarkers nid players, nid + players.length,
     players.length, markers.length⟩
  else ⟨markers, nid, 0, 0⟩

/-! ### Active-Type Set and visibility filter -/

/-- The set of categories observed in a snapshot:
`new Set((objects || []).map(item => item.type))`. -/
def observedTypes (objects : List MapObject) : Finset String :=
  (objects.map MapObject.type).toFinset

/-- Embedding of the Active-Type Set update of the `props.mapObjects`
watcher (MapViewer.vue lines 353-366 and the same code in the other
variants): if the active set is empty and categories were observed,
adopt all observed categories; otherwise keep only the active
categories still observed. -/
def updateActiveTypes (active : Finset String) (objects : List MapObject) :
    Finset String :=
  let types := observedTypes objects
  if active.card = 0 ∧ 0 < types.card then types
  else active.filter (fun t => t ∈ types)

/-- Embedding of `toggleType` (MapViewer.vue lines 277-285). -/
def toggleType (active : Finset String) (t : String) (checked : Bool) :
    Finset String :=
  if checked then insert t active else active.erase t

/-- Embedding of `updateObjectVisibility` (first Leaflet variant,
lines 192-202): each per-type layer group ends up attached to the map
exactly when its type is active.  A layer group is modelled as its
type together with its attachment state (`map.hasLayer`). -/
def updateObjectVisibility (active : Finset String)
    (layers : List (String × Bool)) : List (String × Bool) :=
  layers.map (fun e => (e.1, decide (e.1 ∈ active)))

/-- Overlay state of the first Leaflet variant that the `activeTypes`
watcher can touch: the per-type layer groups and `objectMarkerByKey`. -/
structure LeafletOverlayState where
  layers : List (String × Bool)
  markers : List (ObjKey × ObjMarker)
deriving DecidableEq

/-- The `activeTypes` watcher of the first Leaflet variant
(lines 368-374) runs `updateObjectVisibility` and touches nothing
else; in particular `objectMarkerByKey` is left untouched. -/
def applyVisibilityWatch (active : Finset String) (s : LeafletOverlayState) :
    LeafletOverlayState :=
  ⟨updateObjectVisibility active s.layers, s.markers⟩

/-! ### Clear-and-redraw object reconciler (`redrawMapObjects`, second
Leaflet variant of MapViewer.vue, lines 635-666). -/

/-- One object marker of the second Leaflet variant: identity, the
`type` stored in `options.title`, latlng, and whether the marker was
added to the map (`activeTypes.has(item.type)` at creation). -/
structure BMarker where
  id : ℕ
  type : String
  pos : ℚ × ℚ
  attached : Bool
deriving DecidableEq

/-- Markers created by `redrawMapObjects` for a snapshot. -/
def buildBMarkers (active : Finset String) (nid : ℕ) :
    List MapObject → List BMarker
  | [] => []
  | o :: rest =>
    ⟨nid, o.type, worldToLeaflet o.x o.y, decide (o.type ∈ active)⟩ ::
      buildBMarkers active (nid + 1) rest

/-- Object marker state of the second Leaflet variant. -/
structure BRedrawState where
  markers : List BMarker
  nextId : ℕ
  ready : Bool
deriving DecidableEq

/-- Embedding of `redrawMapObjects` (lines 635-666): no-op unless
ready; otherwise every current object marker is removed and a fresh
marker is created per snapshot entry, attached iff its type is
active. -/
def redrawMapObjects (s : BRedrawState) (active : Finset String)
    (objects : List MapObject) : BRedrawState :=
  if s.ready then
    ⟨buildBMarkers active s.nextId objects, s.nextId + objects.length, s.ready⟩
  else s

/-! ### OpenSeadragon variant (src/unnamed/part_002) -/

/-- OpenSeadragon coordinate conversion `toViewportCoords`
(part_002): normalized game-local coordinates to image pixels. -/
def toViewportCoords (xLoc yLoc imgX imgY : ℚ) : ℚ × ℚ :=
  (((xLoc + 1000) / 2000) * imgX, ((1000 - yLoc) / 2000) * imgY)

/-- OpenSeadragon coordinate conversion `mapWorldToViewportCoords`
(part_002). -/
def mapWorldToViewportCoords (worldX worldY imgX imgY : ℚ) : ℚ × ℚ :=
  let xLoc := (worldY - 156844.55791065) / 462.962962963
  let yLoc := (worldX + 121467.1611767) / 462.962962963
  toViewportCoords xLoc yLoc imgX imgY

/-- One OpenSeadragon overlay element, identified by the id its DOM
element received from a fresh-id counter. -/
inductive OsdOverlay where
  | obj (id : ℕ) (ty : String)
  | player (id : ℕ) (uid : String)
deriving DecidableEq

/-- The id of an overlay element. -/
def overlayId : OsdOverlay → ℕ
  | .obj i _ => i
  | .player i _ => i

/-- Viewer state of the OpenSeadragon variant: current overlays, a
fresh-id counter, and the guards checked by `drawAllOverlays`
(`viewer.value`, `viewer.value.source` with its `dimensions`,
`osdLib.value`, `isReady.value`). -/
structure OsdState where
  overlays : List OsdOverlay
  nextId : ℕ
  hasViewer : Bool
  hasSource : Bool
  hasOsd : Bool
  isReady : Bool
deriving DecidableEq

/-- Embedding of `drawMapObjects` (part_002): only objects whose type
is active get an overlay, one fresh element each, in snapshot order. -/
def drawMapObjectsOsd (active : Finset String) (nid : ℕ) :
    List MapObject → List OsdOverlay × ℕ
  | [] => ([], nid)
  | o :: rest =>
    if o.type ∈ active then
      let r := drawMapObjectsOsd active (nid + 1) rest
      (.obj nid o.type :: r.1, r.2)
    else drawMapObjectsOsd active nid rest

/-- Embedding of `drawPlayers` (part_002): one fresh overlay element
per player. -/
def drawPlayersOsd (nid : ℕ) : List Player → List OsdOverlay × ℕ
  | [] => ([], nid)
  | p :: rest =>
    let r := drawPlayersOsd (nid + 1) rest
    (.player nid p.userId :: r.1, r.2)

/-- Embedding of `drawAllOverlays` (part_002 lines 115-122): no-op
unless the viewer, its tile source, the library module and the `open`
signal are all present; otherwise `clearOverlays()` destroys every
current overlay and objects then players are redrawn from scratch. -/
def drawAllOverlays (s : OsdState) (active : Finset String)
    (objects : List MapObject) (players : List Player) : OsdState :=
  if s.hasViewer ∧ s.hasSource ∧ s.hasOsd ∧ s.isReady then
    let o := drawMapObjectsOsd active s.nextId objects
    let p := drawPlayersOsd o.2 players
    { s with overlays := o.1 ++ p.1, nextId := p.2 }
  else s

/-! ### Server handler `GET /api/map/objects`
(src/server/api/map/objects.get.ts) -/

/-- An HTTP error produced by `createError`. -/
structure HttpErr where
  statusCode : ℕ
  statusMessage : String
deriving DecidableEq

/-- JavaScript `value || fallback` for strings: an absent or empty
message falls back to the default. -/
def orDefault (msg fallback : String) : String :=
  if msg = "" then fallback else msg

/-- One element of the parsed JSON array.  `JSON.parse` can yield a
`null` element, on which the handler's `item.type` access throws a
`TypeError`; every other element is carried as its optional `type`
field (absent both for objects without one and for non-object
primitives, whose property access yields `undefined` without
throwing) together with the rest of the value verbatim. -/
inductive RawItem where
  | nullItem
  | item (type : Option String) (rest : String)
deriving DecidableEq

/-- The `TypeError` message produced by the `item.type` access on a
`null` array element inside the filter callback. -/
def nullTypeErrorMsg : String := "Cannot read properties of null (reading 'type')"

/-- The filter callback's keep-test `item.type !== 'pal'` for an
element on which the property access does not throw. -/
def keepsItem : RawItem → Bool
  | .nullItem => false
  | .item t _ => decide (t ≠ some "pal")

/-- `all.filter((item: any) => item.type !== 'pal')` (objects.get.ts
line 21): walks the array, throwing the `TypeError` of `null.type` if
a `null` element is reached, and otherwise keeping the elements whose
`type` is not `'pal'`. -/
def filterNonPal : List RawItem → Except String (List RawItem)
  | [] => .ok []
  | .nullItem :: _ => .error nullTypeErrorMsg
  | .item t r :: rest =>
    match filterNonPal rest with
    | .error msg => .error msg
    | .ok tail => .ok (if t ≠ some "pal" then .item t r :: tail else tail)

/-- Whether the parsed array contains a `null` element (the inputs on
which the filter callback throws). -/
def hasNullElement : List RawItem → Bool
  | [] => false
  | .nullItem :: _ => true
  | .item _ _ :: rest => hasNullElement rest

/-- Outcome of `fs.readFile` + `JSON.parse` on the data file. -/
inductive Content where
  | readFailure (msg : String)
  | invalidJson (msg : String)
  | jsonNonArray
  | jsonArray (items : List RawItem)
deriving DecidableEq

/-- Outcome of `fs.stat`: the file is either absent (stat throws with
some message) or present with a modification time and contents. -/
inductive FileState where
  | absent (msg : String)
  | present (mtimeMs : ℚ) (content : Content)
deriving DecidableEq

/-- The module-level cache of objects.get.ts: `cachedObjects` and
`cachedMtimeMs`, both initially `null`. -/
structure ObjectsCache where
  cachedObjects : Option (List RawItem)
  cachedMtimeMs : Option ℚ
deriving DecidableEq

/-- Whether the cache guard
`cachedObjects && cachedMtimeMs === stat.mtimeMs` passes (a cached
array is always truthy, even when empty). -/
def cacheHit (cache : ObjectsCache) (mtime : ℚ) : Bool :=
  match cache.cachedObjects, cache.cachedMtimeMs with
  | some _, some m => decide (m = mtime)
  | _, _ => false

/-- The read-and-parse path of objects.get.ts (lines 18-24): a failed
read or parse throws (caught as a 500); valid JSON that is not an
array is treated as the empty array; otherwise the array is filtered
by `item.type !== 'pal'`, which itself throws a `TypeError` on a
`null` element (also caught by the surrounding try/catch as a 500).
On success the filtered array and the file's mtime are cached. -/
def readAndParseObjects (mtime : ℚ) (content : Content) :
    Except HttpErr (List RawItem × ObjectsCache) :=
  match content with
  | .readFailure msg => .error ⟨500, orDefault msg "Unable to load map objects"⟩
  | .invalidJson msg => .error ⟨500, orDefault msg "Unable to load map objects"⟩
  | .jsonNonArray => .ok ([], ⟨some [], some mtime⟩)
  | .jsonArray items =>
    match filterNonPal items with
    | .error msg => .error ⟨500, orDefault msg "Unable to load map objects"⟩
    | .ok next => .ok (next, ⟨some next, some mtime⟩)

/-- Embedding of the objects.get.ts event handler (lines 10-31): stat
the file (500 on failure), serve the cache when the mtime is
unchanged, otherwise read, parse, filter and cache. -/
def objectsHandler (cache : ObjectsCache) (file : FileState) :
    Except HttpErr (List RawItem × ObjectsCache) :=
  match file with
  | .absent msg => .error ⟨500, orDefault msg "Unable to load map objects"⟩
  | .present mtime content =>
    match cache.cachedObjects, cache.cachedMtimeMs with
    | some objs, some m =>
      if m = mtime then .ok (objs, cache)
      else readAndParseObjects mtime content
    | _, _ => readAndParseObjects mtime content

/-- Whether an `Except` result is an error (a thrown `createError`). -/
def isError {ε α : Type} : Except ε α → Bool
  | .error _ => true
  | .ok _ => false

/-- Modelled from the spec: the failure condition of claim C8's error
clause — "the file stat, read, or JSON parse fails".  The stat fails
when the file is absent; a read or parse failure counts only when the
handler actually reads (a cache miss), since on a cache hit no read or
parse is performed. -/
def statReadParseFails (cache : ObjectsCache) (file : FileState) : Bool :=
  match file with
  | .absent _ => true
  | .present mtime content =>
    !cacheHit cache mtime &&
      (match content with
       | .readFailure _ => true
       | .invalidJson _ => true
       | .jsonNonArray => false
       | .jsonArray _ => false)

/-- The condition under which the objects handler actually throws: the
stat fails, or a performed read or parse fails, or the parsed array
contains a `null` element, making the filter callback's `item.type`
access throw inside the try block. -/
def objectsHandlerThrows (cache : ObjectsCache) (file : FileState) : Bool :=
  match file with
  | .absent _ => true
  | .present mtime content =>
    !cacheHit cache mtime &&
      (match content with
       | .readFailure _ => true
       | .invalidJson _ => true
       | .jsonNonArray => false
       | .jsonArray items => hasNullElement items)

/-! ### Server handler `GET /api/palworld/info` (src/unnamed/part_003) -/

/-- The upstream info payload; only `servername` is ever read by the
frontend, the rest of the object is not inspected by the handler. -/
structure InfoData where
  servername : Option String
deriving DecidableEq

/-- Palworld connection settings from the runtime config. -/
structure PalworldConfig where
  host : String
  port : ℕ
  password : String
deriving DecidableEq

/-- Outcome of the upstream `axios.get` call: success with
`result.data` (absent models a falsy body), or failure with
`error?.response?.data?.message` when the upstream supplied one. -/
inductive UpstreamResult where
  | success (data : Option InfoData)
  | failure (message : Option String)
deriving DecidableEq

/-- Embedding of the /api/palworld/info handler (part_003 lines 4-25):
500 when the connection is not configured (falsy host, port or
password), otherwise the upstream body (`result.data || {}`) on
success and a 502 carrying
`error?.response?.data?.message || 'Unable to fetch info'` on
failure. -/
def infoHandler (config : Option PalworldConfig) (upstream : UpstreamResult) :
    Except HttpErr InfoData :=
  match config with
  | none => .error ⟨500, "Palworld connection not configured in runtime config"⟩
  | some c =>
    if c.host = "" ∨ c.port = 0 ∨ c.password = "" then
      .error ⟨500, "Palworld connection not configured in runtime config"⟩
    else
      match upstream with
      | .success data => .ok (data.getD ⟨none⟩)
      | .failure message =>
        .error ⟨502, orDefault (message.getD "") "Unable to fetch info"⟩

/-! ### Sample data used by witnesses and counterexamples -/

/-- A dungeon map object. -/
def sampleDungeon : MapObject := ⟨10, 20, "dungeon", none, none, none⟩

/-- A pal map object. -/
def samplePal : MapObject := ⟨30, 40, "pal", none, some "Lamball", none⟩

/-- A player at world position (100, 200). -/
def samplePlayer : Player := ⟨"u1", "Alice", some 10, 100, 200, none⟩

/-- The same player after moving to world position (150, 210): same
`userId`, same name and level, only the position changed. -/
def samplePlayerMoved : Player := ⟨"u1", "Alice", some 10, 150, 210, none⟩

/-- A small Leaflet overlay state with one pal layer and no markers. -/
def sampleOverlayState : LeafletOverlayState := ⟨[("pal", true)], []⟩

/-- A keyed player-marker state holding one marker for `"u1"`. -/
def sampleMarkerState : PlayerSyncState :=
  ⟨[("u1", ⟨0, worldToLeaflet 100 200⟩)], 1, true⟩

/-- An OpenSeadragon viewer that has fully opened. -/
def osdReadyState : OsdState := ⟨[], 0, true, true, true, true⟩

/-- Active-Type Set `{pal, dungeon}` of the toggling scenario. -/
def osdActive0 : Finset String := {"pal", "dungeon"}

/-- OpenSeadragon state after the first draw of a two-object snapshot. -/
def osdS1 : OsdState :=
  drawAllOverlays osdReadyState osdActive0 [sampleDungeon, samplePal] []

/-- OpenSeadragon state after toggling the pal category off. -/
def osdS2 : OsdState :=
  drawAllOverlays osdS1 (toggleType osdActive0 "pal" false)
    [sampleDungeon, samplePal] []

/-- OpenSeadragon state after toggling the pal category back on. -/
def osdS3 : OsdState :=
  drawAllOverlays osdS2 (toggleType (toggleType osdActive0 "pal" false) "pal" true)
    [sampleDungeon, samplePal] []

end PalserverMap

namespace PalserverMap

/-! ### Lemmas about the coordinate round trip -/

theorem jsRound_sub_abs_le (q : ℚ) : |(jsRound q : ℚ) - q| ≤ 1/2 := by
  have h1 : ((⌊q + 1/2⌋ : ℤ) : ℚ) ≤ q + 1/2 := Int.floor_le _
  have h2 : q + 1/2 < (⌊q + 1/2⌋ : ℤ) + 1 := Int.lt_floor_add_one _
  rw [jsRound, abs_le]
  constructor <;> push_cast at h1 h2 ⊢ <;> linarith

theorem leafletToWorld_worldToLeaflet (wx wy : ℚ) :
    leafletToWorld (worldToLeaflet wx wy) =
      ((jsRound ((wx + TRANSLATION_X) / SCALE) : ℚ) * SCALE - TRANSLATION_X,
       (jsRound ((wy - TRANSLATION_Y) / SCALE) : ℚ) * SCALE + TRANSLATION_Y) := by
  simp only [leafletToWorld, worldToLeaflet, worldToMap, mapToWorld,
    TRANSFORM_A, TRANSFORM_B, TRANSFORM_C, TRANSFORM_D, MAP_SIZE, MAP_WIDTH,
    MAP_HEIGHT, GAME_MIN_X, GAME_MAX_X, GAME_MIN_Y, GAME_MAX_Y]
  norm_num
  all_goals ring

theorem quantize_abs_le (u S : ℚ) (hS : 0 < S) :
    |(jsRound u : ℚ) * S - u * S| ≤ S / 2 := by
  have h := jsRound_sub_abs_le u
  have e : (jsRound u : ℚ) * S - u * S = ((jsRound u : ℚ) - u) * S := by ring
  rw [e, abs_mul, abs_of_pos hS]
  nlinarith [abs_nonneg ((jsRound u : ℚ) - u)]

/-- Claim C1: for every world coordinate within the documented world
bounds, `worldToLeaflet` followed by `leafletToWorld` recovers the
coordinate up to the quantization of the integer map-grid rounding
step: each recovered coordinate differs from the original by at most
`SCALE / 2 = 229.5` world units (the transforms are modelled over ℚ,
so no floating-point error term appears). -/
theorem leaflet_roundtrip_within_half_scale (wx wy : ℚ)
    (hx1 : WORLD_MIN_X ≤ wx) (hx2 : wx ≤ WORLD_MAX_X)
    (hy1 : WORLD_MIN_Y ≤ wy) (hy2 : wy ≤ WORLD_MAX_Y) :
    |(leafletToWorld (worldToLeaflet wx wy)).1 - wx| ≤ SCALE / 2 ∧
    |(leafletToWorld (worldToLeaflet wx wy)).2 - wy| ≤ SCALE / 2 := by
  rw [leafletToWorld_worldToLeaflet]
  have hS : (0 : ℚ) < SCALE := by norm_num [SCALE]
  constructor
  · have hu : ((wx + TRANSLATION_X) / SCALE) * SCALE = wx + TRANSLATION_X := by
      field_simp
    have e : (jsRound ((wx + TRANSLATION_X) / SCALE) : ℚ) * SCALE
        - TRANSLATION_X - wx
        = (jsRound ((wx + TRANSLATION_X) / SCALE) : ℚ) * SCALE
          - ((wx + TRANSLATION_X) / SCALE) * SCALE := by
      rw [hu]; ring
    rw [e]
    exact quantize_abs_le _ _ hS
  · have hu : ((wy - TRANSLATION_Y) / SCALE) * SCALE = wy - TRANSLATION_Y := by
      field_simp
    have e : (jsRound ((wy - TRANSLATION_Y) / SCALE) : ℚ) * SCALE
        + TRANSLATION_Y - wy
        = (jsRound ((wy - TRANSLATION_Y) / SCALE) : ℚ) * SCALE
          - ((wy - TRANSLATION_Y) / SCALE) * SCALE := by
      rw [hu]; ring
    rw [e]
    exact quantize_abs_le _ _ hS

/-- Witness for claim C1: the world origin lies within the documented
bounds and its round trip lands within `SCALE / 2` of the origin. -/
theorem leaflet_roundtrip_witness :
    WORLD_MIN_X ≤ (0 : ℚ) ∧ (0 : ℚ) ≤ WORLD_MAX_X ∧
    WORLD_MIN_Y ≤ (0 : ℚ) ∧ (0 : ℚ) ≤ WORLD_MAX_Y ∧
    (|(leafletToWorld (worldToLeaflet 0 0)).1 - 0| ≤ SCALE / 2 ∧
     |(leafletToWorld (worldToLeaflet 0 0)).2 - 0| ≤ SCALE / 2) :=
  ⟨by norm_num [WORLD_MIN_X], by norm_num [WORLD_MAX_X],
   by norm_num [WORLD_MIN_Y], by norm_num [WORLD_MAX_Y],
   leaflet_roundtrip_within_half_scale 0 0 (by norm_num [WORLD_MIN_X])
     (by norm_num [WORLD_MAX_X]) (by norm_num [WORLD_MIN_Y])
     (by norm_num [WORLD_MAX_Y])⟩

/-! ### Lemmas about the object marker reconciler -/

theorem addMissing_mem_keys (os : List MapObject)
    (m : List (ObjKey × ObjMarker)) (n : ℕ) (k : ObjKey) :
    k ∈ (addMissing m n os).markers.map Prod.fst ↔
      k ∈ m.map Prod.fst ∨ k ∈ os.map getMapObjectKey := by
  induction os generalizing m n with
  | nil => simp [addMissing]
  | cons o rest ih =>
    simp only [addMissing]
    split
    next h =>
      rw [ih]
      simp only [List.map_cons, List.mem_cons]
      constructor
      · rintro (h1 | h1)
        · exact Or.inl h1
        · exact Or.inr (Or.inr h1)
      · rintro (h1 | h1 | h1)
        · exact Or.inl h1
        · exact Or.inl (h1 ▸ h)
        · exact Or.inr h1
    next h =>
      show k ∈ (addMissing _ _ rest).markers.map Prod.fst ↔ _
      rw [ih]
      simp only [List.map_append, List.map_cons, List.map_nil,
        List.mem_append, List.mem_cons, List.mem_singleton,
        List.not_mem_nil, or_false]
      tauto

theorem addMissing_all_present (os : List MapObject)
    (m : List (ObjKey × ObjMarker)) (n : ℕ)
    (h : ∀ o ∈ os, getMapObjectKey o ∈ m.map Prod.fst) :
    addMissing m n os = ⟨m, n, []⟩ := by
  induction os generalizing m n with
  | nil => simp [addMissing]
  | cons o rest ih =>
    simp only [addMissing]
    rw [if_pos (h o (List.mem_cons_self o rest))]
    exact ih m n (fun o' ho' => h o' (List.mem_cons_of_mem o ho'))

theorem addMissing_nodup_keys (os : List MapObject)
    (m : List (ObjKey × ObjMarker)) (n : ℕ)
    (h : (m.map Prod.fst).Nodup) :
    ((addMissing m n os).markers.map Prod.fst).Nodup := by
  induction os generalizing m n with
  | nil => simpa [addMissing]
  | cons o rest ih =>
    simp only [addMissing]
    split
    next => exact ih m n h
    next hk =>
      show ((addMissing _ _ rest).markers.map Prod.fst).Nodup
      apply ih
      rw [List.map_append]
      simp only [List.map_cons, List.map_nil]
      rw [List.nodup_append]
      exact ⟨h, List.nodup_singleton _, by simpa using hk⟩

theorem syncMapObjectMarkers_state_ready (s : ObjSyncState)
    (objects : List MapObject) :
    (syncMapObjectMarkers s objects).state.ready = s.ready := by
  rw [syncMapObjectMarkers]
  split <;> rfl

theorem syncMapObjectMarkers_state_mem_keys (s : ObjSyncState)
    (objects : List MapObject) (hready : s.ready = true) (k : ObjKey) :
    k ∈ (syncMapObjectMarkers s objects).state.markers.map Prod.fst ↔
      k ∈ objects.map getMapObjectKey := by
  simp only [syncMapObjectMarkers, hready, if_true]
  constructor
  · intro hmem
    simp only [List.mem_map, List.mem_filter, decide_eq_true_eq] at hmem
    obtain ⟨e, ⟨he, hin⟩, rfl⟩ := hmem
    exact List.mem_map.mpr hin
  · intro hk
    have h1 := (addMissing_mem_keys objects s.markers s.nextId k).mpr (Or.inr hk)
    obtain ⟨e, he, rfl⟩ := List.mem_map.mp h1
    exact List.mem_map.mpr ⟨e, List.mem_filter.mpr ⟨he, by simpa using hk⟩, rfl⟩

end PalserverMap

namespace PalserverMap

/-! ### Object reconciler: exactness and idempotence -/

theorem sync_noop_when_all_present (t : ObjSyncState) (objects : List MapObject)
    (htr : t.ready = true)
    (hall : ∀ o ∈ objects, getMapObjectKey o ∈ t.markers.map Prod.fst)
    (hsub : ∀ e ∈ t.markers, e.1 ∈ objects.map getMapObjectKey) :
    (syncMapObjectMarkers t objects).created = [] ∧
    (syncMapObjectMarkers t objects).deleted = [] := by
  have hAdd := addMissing_all_present objects t.markers t.nextId hall
  simp only [syncMapObjectMarkers, htr, if_true, hAdd]
  refine ⟨by trivial, ?_⟩
  have hf : t.markers.filter
      (fun e => decide (e.1 ∉ objects.map getMapObjectKey)) = [] := by
    apply List.filter_eq_nil_iff.mpr
    intro e he
    simpa using hsub e he
  rw [hf]
  rfl

theorem sync_second_run_no_ops (s : ObjSyncState) (objects : List MapObject)
    (hready : s.ready = true) :
    (syncMapObjectMarkers (syncMapObjectMarkers s objects).state objects).created = [] ∧
    (syncMapObjectMarkers (syncMapObjectMarkers s objects).state objects).deleted = [] := by
  apply sync_noop_when_all_present
  · rw [syncMapObjectMarkers_state_ready]; exact hready
  · exact fun o ho =>
      (syncMapObjectMarkers_state_mem_keys s objects hready _).mpr
        (List.mem_map_of_mem _ ho)
  · exact fun e he =>
      (syncMapObjectMarkers_state_mem_keys s objects hready e.1).mp
        (List.mem_map_of_mem Prod.fst he)

/-- Claim C4: after `syncMapObjectMarkers` runs with a snapshot, the
key-to-marker mapping contains exactly one marker per distinct
composite key occurring in the snapshot (duplicate entities with equal
keys collapse to a single marker); the destroyed markers are exactly
those previously present whose key is absent from the snapshot, each
destroyed exactly once (the deletion list is duplicate-free); and a
key absent from the snapshot is absent from the mapping afterwards, so
a destroyed marker cannot reappear unless a matching entity returns in
a later snapshot. -/
theorem sync_exactly_one_marker_per_key (s : ObjSyncState)
    (objects : List MapObject) (hready : s.ready = true)
    (hnd : (s.markers.map Prod.fst).Nodup) :
    ((syncMapObjectMarkers s objects).state.markers.map Prod.fst).Nodup ∧
    (∀ k, k ∈ (syncMapObjectMarkers s objects).state.markers.map Prod.fst ↔
      k ∈ objects.map getMapObjectKey) ∧
    (∀ k, k ∈ (syncMapObjectMarkers s objects).deleted ↔
      (k ∈ s.markers.map Prod.fst ∧ k ∉ objects.map getMapObjectKey)) ∧
    (syncMapObjectMarkers s objects).deleted.Nodup := by
  have hnda := addMissing_nodup_keys objects s.markers s.nextId hnd
  refine ⟨?_, fun k => syncMapObjectMarkers_state_mem_keys s objects hready k,
    ?_, ?_⟩
  · simp only [syncMapObjectMarkers, hready, if_true]
    exact hnda.sublist ((List.filter_sublist _).map Prod.fst)
  · intro k
    simp only [syncMapObjectMarkers, hready, if_true]
    constructor
    · intro hk
      obtain ⟨e, hef, rfl⟩ := List.mem_map.mp hk
      have hf := List.mem_filter.mp hef
      have hnin : e.1 ∉ objects.map getMapObjectKey := by simpa using hf.2
      have hmem := (addMissing_mem_keys objects s.markers s.nextId e.1).mp
        (List.mem_map_of_mem Prod.fst hf.1)
      rcases hmem with h1 | h1
      · exact ⟨h1, hnin⟩
      · exact absurd h1 hnin
    · rintro ⟨hks, hkn⟩
      have hmem := (addMissing_mem_keys objects s.markers s.nextId k).mpr
        (Or.inl hks)
      obtain ⟨e, he, rfl⟩ := List.mem_map.mp hmem
      exact List.mem_map.mpr
        ⟨e, List.mem_filter.mpr ⟨he, by simpa using hkn⟩, rfl⟩
  · simp only [syncMapObjectMarkers, hready, if_true]
    exact hnda.sublist ((List.filter_sublist _).map Prod.fst)

/-- Witness for claim C4: syncing a snapshot holding the same dungeon
twice, starting from an empty ready state, yields a duplicate-free
mapping that contains the dungeon's composite key. -/
theorem sync_exactly_one_marker_witness :
    (⟨[], 0, true⟩ : ObjSyncState).ready = true ∧
    (((⟨[], 0, true⟩ : ObjSyncState).markers.map Prod.fst).Nodup) ∧
    ((syncMapObjectMarkers ⟨[], 0, true⟩
        [sampleDungeon, sampleDungeon]).state.markers.map Prod.fst).Nodup ∧
    getMapObjectKey sampleDungeon ∈
      (syncMapObjectMarkers ⟨[], 0, true⟩
        [sampleDungeon, sampleDungeon]).state.markers.map Prod.fst := by
  have h := sync_exactly_one_marker_per_key ⟨[], 0, true⟩
    [sampleDungeon, sampleDungeon] rfl (by simp)
  exact ⟨rfl, by simp, h.1, (h.2.1 _).mpr (by simp)⟩

end PalserverMap

namespace PalserverMap

/-! ### Keyed player reconciler: upsert lemmas -/

theorem map_fst_update (m : List (String × PMarker)) (uid : String) (pos : ℚ × ℚ) :
    (m.map (fun e =>
      if e.1 = uid then (e.1, (⟨e.2.id, pos⟩ : PMarker)) else e)).map Prod.fst =
      m.map Prod.fst := by
  rw [List.map_map]
  apply List.map_congr_left
  intro e _
  by_cases h : e.1 = uid <;> simp [h]

theorem upsert_mem_keys (ps : List Player) (m : List (String × PMarker))
    (n : ℕ) (k : String) :
    k ∈ (upsertPlayers m n ps).markers.map Prod.fst ↔
      k ∈ m.map Prod.fst ∨ k ∈ ps.map Player.userId := by
  induction ps generalizing m n with
  | nil => simp [upsertPlayers]
  | cons p rest ih =>
    simp only [upsertPlayers]
    split
    next h =>
      show k ∈ (upsertPlayers _ _ rest).markers.map Prod.fst ↔ _
      rw [ih, map_fst_update]
      simp only [List.map_cons, List.mem_cons]
      constructor
      · rintro (h1 | h1)
        · exact Or.inl h1
        · exact Or.inr (Or.inr h1)
      · rintro (h1 | h1 | h1)
        · exact Or.inl h1
        · exact Or.inl (h1 ▸ h)
        · exact Or.inr h1
    next h =>
      show k ∈ (upsertPlayers _ _ rest).markers.map Prod.fst ↔ _
      rw [ih]
      simp only [List.map_append, List.map_cons, List.map_nil, List.mem_append,
        List.mem_cons, List.mem_singleton, List.not_mem_nil, or_false]
      tauto

theorem upsert_all_present (ps : List Player) (m : List (String × PMarker))
    (n : ℕ) (h : ∀ p ∈ ps, p.userId ∈ m.map Prod.fst) :
    (upsertPlayers m n ps).created = [] ∧
    (upsertPlayers m n ps).updated = ps.map Player.userId ∧
    (upsertPlayers m n ps).markers.map Prod.fst = m.map Prod.fst := by
  induction ps generalizing m n with
  | nil => simp [upsertPlayers]
  | cons p rest ih =>
    simp only [upsertPlayers]
    rw [if_pos (h p (List.mem_cons_self p rest))]
    have hkeys := map_fst_update m p.userId
      (worldToLeaflet p.location_x p.location_y)
    have ih' := ih
      (m.map fun e =>
        if e.1 = p.userId then
          (e.1, (⟨e.2.id, worldToLeaflet p.location_x p.location_y⟩ : PMarker))
        else e)
      n
      (fun q hq => by rw [hkeys]; exact h q (List.mem_cons_of_mem p hq))
    exact ⟨ih'.1, congrArg (List.cons p.userId) ih'.2.1, ih'.2.2.trans hkeys⟩

theorem upsert_preserves_entry_absent (ps : List Player)
    (m : List (String × PMarker)) (n : ℕ) (uid : String) (mk : PMarker)
    (huid : uid ∉ ps.map Player.userId) (he : (uid, mk) ∈ m) :
    (uid, mk) ∈ (upsertPlayers m n ps).markers := by
  induction ps generalizing m n with
  | nil => simpa [upsertPlayers]
  | cons p rest ih =>
    have hne : uid ≠ p.userId := by
      intro hh
      exact huid (by simp [hh])
    have huid' : uid ∉ rest.map Player.userId := by
      intro hh
      exact huid (by simp [hh])
    simp only [upsertPlayers]
    split
    next h =>
      show (uid, mk) ∈ (upsertPlayers _ _ rest).markers
      apply ih _ _ huid'
      have heq : (fun e =>
          if e.1 = p.userId then
            (e.1, (⟨e.2.id, worldToLeaflet p.location_x p.location_y⟩ : PMarker))
          else e) (uid, mk) = (uid, mk) := by
        simp [hne]
      exact heq ▸ List.mem_map_of_mem _ he
    next h =>
      show (uid, mk) ∈ (upsertPlayers _ _ rest).markers
      exact ih _ _ huid' (List.mem_append_left _ he)

theorem upsert_created_subset (ps : List Player) (m : List (String × PMarker))
    (n : ℕ) (x : String) (hx : x ∈ (upsertPlayers m n ps).created) :
    x ∈ ps.map Player.userId := by
  induction ps generalizing m n with
  | nil => simp [upsertPlayers] at hx
  | cons p rest ih =>
    simp only [upsertPlayers] at hx
    split at hx
    next h =>
      replace hx : x ∈ (upsertPlayers _ _ rest).created := hx
      exact List.mem_cons_of_mem _ (ih _ _ hx)
    next h =>
      replace hx : x ∈ p.userId :: (upsertPlayers _ _ rest).created := hx
      rcases List.mem_cons.mp hx with heq | hx'
      · exact heq ▸ List.mem_cons_self _ _
      · exact List.mem_cons_of_mem _ (ih _ _ hx')

theorem upsert_updates_entry (ps : List Player) (m : List (String × PMarker))
    (n : ℕ) (p : Player) (mk : PMarker)
    (hnd : (ps.map Player.userId).Nodup) (hp : p ∈ ps)
    (he : (p.userId, mk) ∈ m) :
    ((p.userId,
        (⟨mk.id, worldToLeaflet p.location_x p.location_y⟩ : PMarker)) ∈
      (upsertPlayers m n ps).markers) ∧
    p.userId ∉ (upsertPlayers m n ps).created := by
  induction ps generalizing m n with
  | nil => cases hp
  | cons q rest ih =>
    rcases List.mem_cons.mp hp with heq | hp'
    · subst heq
      have hin : p.userId ∈ m.map Prod.fst := List.mem_map_of_mem Prod.fst he
      have huid : p.userId ∉ rest.map Player.userId := (List.nodup_cons.mp hnd).1
      simp only [upsertPlayers]
      rw [if_pos hin]
      have hmem' : (p.userId,
          (⟨mk.id, worldToLeaflet p.location_x p.location_y⟩ : PMarker)) ∈
          m.map (fun e =>
            if e.1 = p.userId then
              (e.1, (⟨e.2.id, worldToLeaflet p.location_x p.location_y⟩ : PMarker))
            else e) := by
        have hm := List.mem_map_of_mem (fun e =>
          if e.1 = p.userId then
            (e.1, (⟨e.2.id, worldToLeaflet p.location_x p.location_y⟩ : PMarker))
          else e) he
        simpa using hm
      constructor
      · show _ ∈ (upsertPlayers _ _ rest).markers
        exact upsert_preserves_entry_absent rest _ n p.userId _ huid hmem'
      · show p.userId ∉ (upsertPlayers _ _ rest).created
        intro hcon
        exact huid (upsert_created_subset rest _ n _ hcon)
    · have hqne : q.userId ≠ p.userId := by
        intro hh
        exact (List.nodup_cons.mp hnd).1
          (hh ▸ List.mem_map_of_mem Player.userId hp')
      have hnd' : (rest.map Player.userId).Nodup := (List.nodup_cons.mp hnd).2
      simp only [upsertPlayers]
      split
      next hin =>
        have he' : (p.userId, mk) ∈ m.map (fun e =>
            if e.1 = q.userId then
              (e.1, (⟨e.2.id, worldToLeaflet q.location_x q.location_y⟩ : PMarker))
            else e) := by
          have hm := List.mem_map_of_mem (fun e =>
            if e.1 = q.userId then
              (e.1, (⟨e.2.id, worldToLeaflet q.location_x q.location_y⟩ : PMarker))
            else e) he
          simpa [Ne.symm hqne] using hm
        obtain ⟨h1, h2⟩ := ih _ n hnd' hp' he'
        exact ⟨h1, h2⟩
      next hin =>
        have he' : (p.userId, mk) ∈
            m ++ [(q.userId,
              (⟨n, worldToLeaflet q.location_x q.location_y⟩ : PMarker))] :=
          List.mem_append_left _ he
        obtain ⟨h1, h2⟩ := ih _ (n + 1) hnd' hp' he'
        refine ⟨h1, ?_⟩
        show p.userId ∉ q.userId :: (upsertPlayers _ _ rest).created
        intro hcon
        rcases List.mem_cons.mp hcon with heq2 | hcon'
        · exact hqne heq2.symm
        · exact h2 hcon'

end PalserverMap

namespace PalserverMap

/-! ### Keyed player reconciler: second-run and in-place-update theorems -/

theorem redrawPlayersInc_state_ready (s : PlayerSyncState) (ps : List Player) :
    (redrawPlayersInc s ps).state.ready = s.ready := by
  rw [redrawPlayersInc]
  split <;> rfl

theorem redrawPlayersInc_state_mem_keys (s : PlayerSyncState)
    (ps : List Player) (hready : s.ready = true) (k : String) :
    k ∈ (redrawPlayersInc s ps).state.markers.map Prod.fst ↔
      k ∈ ps.map Player.userId := by
  simp only [redrawPlayersInc, hready, if_true]
  constructor
  · intro hmem
    obtain ⟨e, hef, rfl⟩ := List.mem_map.mp hmem
    have hf := List.mem_filter.mp hef
    simpa using hf.2
  · intro hk
    have h1 := (upsert_mem_keys ps s.markers s.nextId k).mpr (Or.inr hk)
    obtain ⟨e, he, rfl⟩ := List.mem_map.mp h1
    exact List.mem_map.mpr ⟨e, List.mem_filter.mpr ⟨he, by simpa using hk⟩, rfl⟩

theorem redrawPlayersInc_noop_when_all_present (t : PlayerSyncState)
    (ps : List Player) (htr : t.ready = true)
    (hall : ∀ p ∈ ps, p.userId ∈ t.markers.map Prod.fst)
    (hsub : ∀ e ∈ t.markers, e.1 ∈ ps.map Player.userId) :
    (redrawPlayersInc t ps).created = [] ∧
    (redrawPlayersInc t ps).deleted = [] ∧
    (redrawPlayersInc t ps).updated = ps.map Player.userId := by
  have hA := upsert_all_present ps t.markers t.nextId hall
  simp only [redrawPlayersInc, htr, if_true]
  refine ⟨hA.1, ?_, hA.2.1⟩
  show ((upsertPlayers t.markers t.nextId ps).markers.filter
      (fun e => decide (e.1 ∉ ps.map Player.userId))).map Prod.fst = []
  have hnil : (upsertPlayers t.markers t.nextId ps).markers.filter
      (fun e => decide (e.1 ∉ ps.map Player.userId)) = [] := by
    apply List.filter_eq_nil_iff.mpr
    intro e he
    have hk : e.1 ∈ t.markers.map Prod.fst := by
      rw [← hA.2.2]
      exact List.mem_map_of_mem Prod.fst he
    obtain ⟨e', he', heq⟩ := List.mem_map.mp hk
    have hmem := hsub e' he'
    rw [heq] at hmem
    simpa using hmem
  rw [hnil]
  rfl

theorem redrawPlayersInc_second_run (s : PlayerSyncState) (ps : List Player)
    (hready : s.ready = true) :
    (redrawPlayersInc (redrawPlayersInc s ps).state ps).created = [] ∧
    (redrawPlayersInc (redrawPlayersInc s ps).state ps).deleted = [] ∧
    (redrawPlayersInc (redrawPlayersInc s ps).state ps).updated =
      ps.map Player.userId := by
  apply redrawPlayersInc_noop_when_all_present
  · rw [redrawPlayersInc_state_ready]
    exact hready
  · exact fun p hp =>
      (redrawPlayersInc_state_mem_keys s ps hready _).mpr
        (List.mem_map_of_mem _ hp)
  · exact fun e he =>
      (redrawPlayersInc_state_mem_keys s ps hready e.1).mp
        (List.mem_map_of_mem Prod.fst he)

theorem buildPlayerMarkers_length (nid : ℕ) (ps : List Player) :
    (buildPlayerMarkers nid ps).length = ps.length := by
  induction ps generalizing nid with
  | nil => rfl
  | cons p rest ih => simp [buildPlayerMarkers, ih]

/-- Claim C2 (amended): the object reconciler `syncMapObjectMarkers` is
idempotent — a second run with the same snapshot performs zero marker
creations and zero deletions (it has no update operation at all).  The
keyed player reconciler performs zero creations and zero deletions on
the second run, but it is not literally operation-free: it re-applies
its in-place update to every player of the snapshot on every run.  The
clear-and-redraw player reconciler of the first Leaflet variant is not
idempotent: every run, including the second, destroys all current
markers and creates one marker per player. -/
theorem reconciliation_idempotence (s : ObjSyncState) (objects : List MapObject)
    (t : PlayerSyncState) (players : List Player)
    (markers : List (ℕ × ℚ × ℚ)) (nid : ℕ)
    (hs : s.ready = true) (ht : t.ready = true) :
    ((syncMapObjectMarkers (syncMapObjectMarkers s objects).state objects).created = [] ∧
     (syncMapObjectMarkers (syncMapObjectMarkers s objects).state objects).deleted = []) ∧
    ((redrawPlayersInc (redrawPlayersInc t players).state players).created = [] ∧
     (redrawPlayersInc (redrawPlayersInc t players).state players).deleted = [] ∧
     (redrawPlayersInc (redrawPlayersInc t players).state players).updated =
       players.map Player.userId) ∧
    ((redrawPlayersClear true
        (redrawPlayersClear true markers nid players).markers
        (redrawPlayersClear true markers nid players).nextId players).created =
          players.length ∧
     (redrawPlayersClear true
        (redrawPlayersClear true markers nid players).markers
        (redrawPlayersClear true markers nid players).nextId players).deleted =
          players.length) :=
  ⟨sync_second_run_no_ops s objects hs,
   redrawPlayersInc_second_run t players ht,
   by simp [redrawPlayersClear, buildPlayerMarkers_length]⟩

/-- Witness for claim C2 (amended): concrete second runs on a
one-object and a one-player snapshot. -/
theorem reconciliation_idempotence_witness :
    (syncMapObjectMarkers (syncMapObjectMarkers ⟨[], 0, true⟩ [sampleDungeon]).state
        [sampleDungeon]).created = ([] : List ObjKey) ∧
    (redrawPlayersInc (redrawPlayersInc ⟨[], 0, true⟩ [samplePlayer]).state
        [samplePlayer]).updated = ["u1"] := by
  have h := reconciliation_idempotence ⟨[], 0, true⟩ [sampleDungeon]
    ⟨[], 0, true⟩ [samplePlayer] [] 0 rfl rfl
  refine ⟨h.1.1, ?_⟩
  have h2 := h.2.1.2.2
  simpa [samplePlayer] using h2

/-- Counterexample to claim C2: the clear-and-redraw `redrawPlayers`
of the first Leaflet variant (MapViewer.vue lines 246-275, covered by
the claim's "every Map Viewer variant") is not idempotent — running it
a second time with the unchanged one-player snapshot performs one
marker creation and one marker destruction, not zero. -/
theorem clear_redraw_not_idempotent :
    ¬ ((redrawPlayersClear true
          (redrawPlayersClear true [] 0 [samplePlayer]).markers
          (redrawPlayersClear true [] 0 [samplePlayer]).nextId
          [samplePlayer]).created = 0 ∧
       (redrawPlayersClear true
          (redrawPlayersClear true [] 0 [samplePlayer]).markers
          (redrawPlayersClear true [] 0 [samplePlayer]).nextId
          [samplePlayer]).deleted = 0) := by
  decide

/-- Claim C3 (amended): in the keyed player reconciler (the
`playerMarkerByUserId` variant), when a player is present in both the
previous state and the new snapshot, its existing backend marker object
is kept (same marker id) and repositioned in place to the player's new
position, and no creation and no destruction occurs for that
`userId`. -/
theorem keyed_player_update_in_place (s : PlayerSyncState)
    (players : List Player) (p : Player) (mk : PMarker)
    (hready : s.ready = true)
    (hnd : (players.map Player.userId).Nodup)
    (hp : p ∈ players)
    (he : (p.userId, mk) ∈ s.markers) :
    ((p.userId,
        (⟨mk.id, worldToLeaflet p.location_x p.location_y⟩ : PMarker)) ∈
      (redrawPlayersInc s players).state.markers) ∧
    p.userId ∉ (redrawPlayersInc s players).created ∧
    p.userId ∉ (redrawPlayersInc s players).deleted := by
  obtain ⟨h1, h2⟩ := upsert_updates_entry players s.markers s.nextId p mk hnd hp he
  simp only [redrawPlayersInc, hready, if_true]
  refine ⟨?_, h2, ?_⟩
  · exact List.mem_filter.mpr
      ⟨h1, by simpa using List.mem_map_of_mem Player.userId hp⟩
  · show p.userId ∉ ((upsertPlayers s.markers s.nextId players).markers.filter
        (fun e => decide (e.1 ∉ players.map Player.userId))).map Prod.fst
    intro hcon
    obtain ⟨e, hef, heq⟩ := List.mem_map.mp hcon
    have hf := List.mem_filter.mp hef
    have hnin : e.1 ∉ players.map Player.userId := by simpa using hf.2
    rw [heq] at hnin
    exact hnin (List.mem_map_of_mem Player.userId hp)

/-- Witness for claim C3 (amended): the stored marker 0 for `"u1"` is
repositioned to the moved player's position; `"u1"` is neither created
nor deleted. -/
theorem keyed_player_update_in_place_witness :
    (("u1", (⟨0, worldToLeaflet 150 210⟩ : PMarker)) ∈
       (redrawPlayersInc sampleMarkerState [samplePlayerMoved]).state.markers) ∧
    "u1" ∉ (redrawPlayersInc sampleMarkerState [samplePlayerMoved]).created ∧
    "u1" ∉ (redrawPlayersInc sampleMarkerState [samplePlayerMoved]).deleted := by
  have h := keyed_player_update_in_place sampleMarkerState [samplePlayerMoved]
    samplePlayerMoved ⟨0, worldToLeaflet 100 200⟩ rfl (by simp)
    (by simp) (by simp [sampleMarkerState, samplePlayerMoved])
  simpa [samplePlayerMoved] using h

/-- Counterexample to claim C3: in the clear-and-redraw `redrawPlayers`
of the first Leaflet variant (MapViewer.vue lines 246-275, one of the
claim's cited reconcilers), a player whose position alone changed
between polls does not keep its marker: the second run destroys the
existing marker (id 0) and creates a fresh one (id 1) — a
destroy/recreate pair for that `userId`. -/
theorem clear_redraw_recreates_marker :
    (redrawPlayersClear true
        (redrawPlayersClear true [] 0 [samplePlayer]).markers
        (redrawPlayersClear true [] 0 [samplePlayer]).nextId
        [samplePlayerMoved]).deleted = 1 ∧
    (redrawPlayersClear true
        (redrawPlayersClear true [] 0 [samplePlayer]).markers
        (redrawPlayersClear true [] 0 [samplePlayer]).nextId
        [samplePlayerMoved]).created = 1 ∧
    (redrawPlayersClear true
        (redrawPlayersClear true [] 0 [samplePlayer]).markers
        (redrawPlayersClear true [] 0 [samplePlayer]).nextId
        [samplePlayerMoved]).markers.map Prod.fst = [1] ∧
    (redrawPlayersClear true [] 0 [samplePlayer]).markers.map Prod.fst = [0] := by
  decide

end PalserverMap

namespace PalserverMap

/-! ### Active-Type Set update rule -/

/-- Claim C5: on every `mapObjects` snapshot change, the Active-Type
Set becomes the observed category set when it was empty and something
was observed, and otherwise becomes the intersection of its previous
value with the observed set; consequently a category absent from the
data is pruned, and a category not previously active is never
auto-enabled while the set is non-empty. -/
theorem active_types_update_rule (active : Finset String)
    (objects : List MapObject) :
    (updateActiveTypes active objects =
      if active = ∅ ∧ observedTypes objects ≠ ∅ then observedTypes objects
      else active ∩ observedTypes objects) ∧
    (∀ t, t ∉ observedTypes objects → t ∉ updateActiveTypes active objects) ∧
    (∀ t, active ≠ ∅ → t ∉ active → t ∉ updateActiveTypes active objects) := by
  have hc : (active.card = 0 ∧ 0 < (observedTypes objects).card) ↔
      (active = ∅ ∧ observedTypes objects ≠ ∅) := by
    rw [Finset.card_eq_zero, Finset.card_pos, Finset.nonempty_iff_ne_empty]
  have hmain : updateActiveTypes active objects =
      if active = ∅ ∧ observedTypes objects ≠ ∅ then observedTypes objects
      else active ∩ observedTypes objects := by
    simp only [updateActiveTypes]
    rw [Finset.filter_mem_eq_inter, if_congr hc rfl rfl]
  refine ⟨hmain, ?_, ?_⟩
  · intro t ht
    rw [hmain]
    split
    · exact ht
    · exact fun hmem => ht (Finset.mem_inter.mp hmem).2
  · intro t ha hta
    rw [hmain, if_neg (fun hcond => ha hcond.1)]
    exact fun hmem => hta (Finset.mem_inter.mp hmem).1

/-- Witness for claim C5: with an empty Active-Type Set and a snapshot
observing the dungeon category, the set becomes exactly the observed
categories. -/
theorem active_types_update_witness :
    (∅ : Finset String) = ∅ ∧ observedTypes [sampleDungeon] ≠ ∅ ∧
    updateActiveTypes ∅ [sampleDungeon] = observedTypes [sampleDungeon] := by
  refine ⟨rfl, by decide, ?_⟩
  rw [(active_types_update_rule ∅ [sampleDungeon]).1, if_pos ⟨rfl, by decide⟩]

/-! ### Visibility filter -/

/-- Claim C6 (amended): in the Leaflet marker variant, after
`updateObjectVisibility` runs (which both the reconciler and the
`activeTypes` watcher do), a per-type layer group — and hence every
marker living in it — is attached to the map exactly when its category
is in the Active-Type Set; the watcher leaves `objectMarkerByKey`
untouched, so toggling never destroys marker objects; and toggling a
category off and back on restores the original active set, hence the
original attachment of the same marker instances.  (In the
OpenSeadragon variant the claim fails; see the counterexample.) -/
theorem leaflet_visibility_invariant (active : Finset String)
    (s : LeafletOverlayState) (t : String) :
    (∀ ty b, (ty, b) ∈ (applyVisibilityWatch active s).layers →
      (b = true ↔ ty ∈ active)) ∧
    (applyVisibilityWatch active s).markers = s.markers ∧
    (t ∈ active →
      applyVisibilityWatch (toggleType (toggleType active t false) t true) s =
        applyVisibilityWatch active s) := by
  refine ⟨?_, rfl, ?_⟩
  · intro ty b hmem
    simp only [applyVisibilityWatch, updateObjectVisibility,
      List.mem_map] at hmem
    obtain ⟨e, _, heq⟩ := hmem
    have h1 : e.1 = ty := congrArg Prod.fst heq
    have h2 : decide (e.1 ∈ active) = b := congrArg Prod.snd heq
    subst h1
    rw [← h2]
    simp
  · intro ht
    have h1 : toggleType active t false = active.erase t := rfl
    have h2 : toggleType (active.erase t) t true = insert t (active.erase t) :=
      rfl
    rw [h1, h2, Finset.insert_erase ht]

/-- Witness for claim C6 (amended): with active set `{pal}`, toggling
`pal` off and back on leaves the overlay state exactly as before, and
the layer attachment invariant holds on the sample state. -/
theorem leaflet_visibility_witness :
    "pal" ∈ ({"pal"} : Finset String) ∧
    applyVisibilityWatch
        (toggleType (toggleType {"pal"} "pal" false) "pal" true)
        sampleOverlayState =
      applyVisibilityWatch {"pal"} sampleOverlayState ∧
    (applyVisibilityWatch {"pal"} sampleOverlayState).markers =
      sampleOverlayState.markers := by
  have h := leaflet_visibility_invariant {"pal"} sampleOverlayState "pal"
  exact ⟨by decide, h.2.2 (by decide), h.2.1⟩

/-- Counterexample to claim C6: in the OpenSeadragon variant (cited by
the claim via `drawAllOverlays`), toggling a category is not a
detach/reattach of live marker instances.  Starting from overlays with
element ids `[0, 1]` for a dungeon and a pal, toggling `pal` off
destroys both elements and redraws only the dungeon as a fresh element
(ids `[2]`); toggling `pal` back on creates two more fresh elements
(ids `[3, 4]`), so the original pal element (id 1) is never
reattached. -/
theorem osd_toggle_destroys_overlays :
    osdS1.overlays.map overlayId = [0, 1] ∧
    osdS2.overlays.map overlayId = [2] ∧
    osdS3.overlays.map overlayId = [3, 4] := by
  decide

/-! ### Drawing before readiness is a silent no-op -/

/-- Claim C7: every overlay-drawing routine — `drawAllOverlays`,
`syncMapObjectMarkers`, `redrawMapObjects` and both `redrawPlayers`
variants — invoked before its backend is ready returns with the marker
state unchanged and zero reported operations.  The embeddings are
total functions: the readiness guard returns before any backend call,
so no exception path is reachable, matching "a no-op, never an
error". -/
theorem drawing_before_ready_is_noop (os : OsdState) (active : Finset String)
    (objects : List MapObject) (players : List Player) (ss : ObjSyncState)
    (bs : BRedrawState) (pls : PlayerSyncState)
    (markers : List (ℕ × ℚ × ℚ)) (nid : ℕ) (r : Bool)
    (h1 : os.isReady = false) (h2 : ss.ready = false) (h3 : bs.ready = false)
    (h4 : pls.ready = false) (h5 : r = false) :
    drawAllOverlays os active objects players = os ∧
    syncMapObjectMarkers ss objects = ⟨ss, [], []⟩ ∧
    redrawMapObjects bs active objects = bs ∧
    redrawPlayersClear r markers nid players = ⟨markers, nid, 0, 0⟩ ∧
    redrawPlayersInc pls players = ⟨pls, [], [], []⟩ := by
  refine ⟨?_, ?_, ?_, ?_, ?_⟩
  · simp [drawAllOverlays, h1]
  · simp [syncMapObjectMarkers, h2]
  · simp [redrawMapObjects, h3]
  · simp [redrawPlayersClear, h5]
  · simp [redrawPlayersInc, h4]

/-- Witness for claim C7: concrete unready states for all five drawing
routines. -/
theorem drawing_before_ready_witness :
    drawAllOverlays ⟨[], 0, true, true, true, false⟩ ∅ [] [] =
      ⟨[], 0, true, true, true, false⟩ ∧
    syncMapObjectMarkers ⟨[], 0, false⟩ [] = ⟨⟨[], 0, false⟩, [], []⟩ ∧
    redrawMapObjects ⟨[], 0, false⟩ ∅ [] = ⟨[], 0, false⟩ ∧
    redrawPlayersClear false [] 0 [] = ⟨[], 0, 0, 0⟩ ∧
    redrawPlayersInc ⟨[], 0, false⟩ [] = ⟨⟨[], 0, false⟩, [], [], []⟩ :=
  drawing_before_ready_is_noop ⟨[], 0, true, true, true, false⟩ ∅ [] []
    ⟨[], 0, false⟩ ⟨[], 0, false⟩ ⟨[], 0, false⟩ [] 0 false
    rfl rfl rfl rfl rfl

end PalserverMap

namespace PalserverMap

/-! ### Server endpoint theorems -/

theorem filterNonPal_of_no_null (items : List RawItem)
    (h : hasNullElement items = false) :
    filterNonPal items = .ok (items.filter keepsItem) := by
  induction items with
  | nil => rfl
  | cons i rest ih =>
    cases i with
    | nullItem => simp [hasNullElement] at h
    | item t r =>
      rw [hasNullElement] at h
      simp only [filterNonPal, ih h]
      by_cases ht : t = some "pal" <;> simp [keepsItem, ht, List.filter_cons]

theorem hasNullElement_eq_isError (items : List RawItem) :
    hasNullElement items = isError (filterNonPal items) := by
  induction items with
  | nil => rfl
  | cons i rest ih =>
    cases i with
    | nullItem => rfl
    | item t r =>
      rw [hasNullElement, ih, filterNonPal]
      cases hf : filterNonPal rest <;> simp [hf, isError]

theorem isError_readAndParse_eq (mtime : ℚ) (items : List RawItem) :
    isError (readAndParseObjects mtime (.jsonArray items)) =
      hasNullElement items := by
  rw [hasNullElement_eq_isError]
  cases hf : filterNonPal items <;> simp [readAndParseObjects, hf, isError]

theorem readAndParseObjects_error_code (mtime : ℚ) (content : Content)
    (e : HttpErr) (h : readAndParseObjects mtime content = .error e) :
    e.statusCode = 500 := by
  cases content with
  | readFailure m =>
    simp only [readAndParseObjects, Except.error.injEq] at h
    rw [← h]
  | invalidJson m =>
    simp only [readAndParseObjects, Except.error.injEq] at h
    rw [← h]
  | jsonNonArray => simp [readAndParseObjects] at h
  | jsonArray items =>
    cases hf : filterNonPal items with
    | error msg =>
      simp only [readAndParseObjects, hf, Except.error.injEq] at h
      rw [← h]
    | ok next => simp [readAndParseObjects, hf] at h

/-- Claim C8 (amended): `GET /api/map/objects` (1) on a fresh read of
an array file containing no null element returns the parsed array with
every `type = 'pal'` item dropped, and caches that filtered array with
the file's mtime; (2) when the mtime is unchanged since the last
successful read, the cached filtered array is returned without
re-reading — the result does not depend on the current file content —
and it equals what re-reading would produce (the same value the fresh
run returned); (3) the handler throws an error precisely when the stat
fails, or a performed read or parse fails, or the parsed array
contains a null element — on which the filter callback's `item.type`
access throws a `TypeError` that the same try/catch converts into an
error response; (4) every thrown error is an HTTP 500. -/
theorem objects_get_contract :
    (∀ (cache : ObjectsCache) (mtime : ℚ) (items : List RawItem),
      cacheHit cache mtime = false →
      hasNullElement items = false →
      objectsHandler cache (.present mtime (.jsonArray items)) =
        .ok (items.filter keepsItem,
          ⟨some (items.filter keepsItem), some mtime⟩)) ∧
    (∀ (mtime : ℚ) (content : Content) (objs : List RawItem)
        (cache' : ObjectsCache),
      objectsHandler ⟨none, none⟩ (.present mtime content) =
        .ok (objs, cache') →
      ∀ content', objectsHandler cache' (.present mtime content') =
        .ok (objs, cache')) ∧
    (∀ (cache : ObjectsCache) (file : FileState),
      isError (objectsHandler cache file) = objectsHandlerThrows cache file) ∧
    (∀ (cache : ObjectsCache) (file : FileState) (e : HttpErr),
      objectsHandler cache file = .error e → e.statusCode = 500) := by
  refine ⟨?_, ?_, ?_, ?_⟩
  · intro cache mtime items hmiss hnull
    have hfp := filterNonPal_of_no_null items hnull
    rcases cache with ⟨co, cm⟩
    rcases co with _ | objs
    · rcases cm with _ | m <;> simp [objectsHandler, readAndParseObjects, hfp]
    · rcases cm with _ | m
      · simp [objectsHandler, readAndParseObjects, hfp]
      · simp only [cacheHit, decide_eq_false_iff_not] at hmiss
        simp [objectsHandler, readAndParseObjects, hfp, hmiss]
  · intro mtime content objs cache' hrun content'
    simp only [objectsHandler] at hrun
    cases content with
    | readFailure m => simp [readAndParseObjects] at hrun
    | invalidJson m => simp [readAndParseObjects] at hrun
    | jsonNonArray =>
      simp only [readAndParseObjects, Except.ok.injEq, Prod.mk.injEq] at hrun
      obtain ⟨h1, h2⟩ := hrun
      subst h1
      subst h2
      simp [objectsHandler]
    | jsonArray items =>
      cases hf : filterNonPal items with
      | error msg => simp [readAndParseObjects, hf] at hrun
      | ok next =>
        simp only [readAndParseObjects, hf, Except.ok.injEq,
          Prod.mk.injEq] at hrun
        obtain ⟨h1, h2⟩ := hrun
        subst h1
        subst h2
        simp [objectsHandler]
  · intro cache file
    rcases cache with ⟨co, cm⟩
    cases file with
    | absent msg => rfl
    | present mtime content =>
      rcases co with _ | objs <;> rcases cm with _ | m
      · cases content with
        | readFailure m2 => rfl
        | invalidJson m2 => rfl
        | jsonNonArray => rfl
        | jsonArray items => exact isError_readAndParse_eq mtime items
      · cases content with
        | readFailure m2 => rfl
        | invalidJson m2 => rfl
        | jsonNonArray => rfl
        | jsonArray items => exact isError_readAndParse_eq mtime items
      · cases content with
        | readFailure m2 => rfl
        | invalidJson m2 => rfl
        | jsonNonArray => rfl
        | jsonArray items => exact isError_readAndParse_eq mtime items
      · by_cases hm : m = mtime
        · subst hm
          cases content <;>
            simp [objectsHandler, objectsHandlerThrows, cacheHit, isError]
        · cases content with
          | readFailure m2 =>
            simp [objectsHandler, objectsHandlerThrows, cacheHit,
              readAndParseObjects, isError, hm]
          | invalidJson m2 =>
            simp [objectsHandler, objectsHandlerThrows, cacheHit,
              readAndParseObjects, isError, hm]
          | jsonNonArray =>
            simp [objectsHandler, objectsHandlerThrows, cacheHit,
              readAndParseObjects, isError, hm]
          | jsonArray items =>
            simp only [objectsHandler, objectsHandlerThrows, cacheHit]
            rw [if_neg hm, isError_readAndParse_eq]
            simp [hm]
  · intro cache file e h
    rcases cache with ⟨co, cm⟩
    cases file with
    | absent msg =>
      simp only [objectsHandler, Except.error.injEq] at h
      rw [← h]
    | present mtime content =>
      rcases co with _ | objs
      · rcases cm with _ | m
        · exact readAndParseObjects_error_code mtime content e h
        · exact readAndParseObjects_error_code mtime content e h
      · rcases cm with _ | m
        · exact readAndParseObjects_error_code mtime content e h
        · by_cases hm : m = mtime
          · simp only [objectsHandler, hm, if_true] at h
            cases h
          · simp only [objectsHandler, hm, if_false] at h
            exact readAndParseObjects_error_code mtime content e h

/-- Witness for claim C8 (amended): a fresh read of a two-item
null-free array file drops the pal item, returns the dungeon item and
caches the filtered array. -/
theorem objects_get_contract_witness :
    cacheHit ⟨none, none⟩ 5 = false ∧
    hasNullElement
      [RawItem.item (some "pal") "a", RawItem.item (some "dungeon") "b"] =
        false ∧
    objectsHandler ⟨none, none⟩
        (.present 5 (.jsonArray
          [.item (some "pal") "a", .item (some "dungeon") "b"])) =
      .ok ([.item (some "dungeon") "b"],
        ⟨some [.item (some "dungeon") "b"], some 5⟩) := by
  refine ⟨rfl, rfl, ?_⟩
  have h := objects_get_contract.1 ⟨none, none⟩ 5
    [.item (some "pal") "a", .item (some "dungeon") "b"] rfl rfl
  simpa [keepsItem] using h

/-- Counterexample to claim C8: a file whose JSON is the valid array
`[null]` — the stat, the read and the JSON parse all succeed — still
produces an HTTP 500, because the filter callback's `item.type`
access throws a `TypeError` on the null element and the surrounding
try/catch converts it into the 500.  So the claim's "throws an HTTP
500 error if and only if the file stat, read, or JSON parse fails" is
false of the program: at this input none of the three operations
fails, yet the handler throws. -/
theorem objects_get_null_element_500 :
    objectsHandler ⟨none, none⟩ (.present 0 (.jsonArray [.nullItem])) =
      .error ⟨500, nullTypeErrorMsg⟩ ∧
    statReadParseFails ⟨none, none⟩ (.present 0 (.jsonArray [.nullItem])) =
      false := by
  constructor
  · rfl
  · rfl

/-- Claim C10: valid JSON whose top-level value is not an array is
treated as an empty object list: on a cache miss the handler returns
the empty array and caches it with the file's mtime, rather than
failing with HTTP 500. -/
theorem objects_get_non_array_yields_empty (cache : ObjectsCache) (mtime : ℚ)
    (hmiss : cacheHit cache mtime = false) :
    objectsHandler cache (.present mtime .jsonNonArray) =
      .ok ([], ⟨some [], some mtime⟩) := by
  rcases cache with ⟨co, cm⟩
  rcases co with _ | objs
  · rcases cm with _ | m <;> simp [objectsHandler, readAndParseObjects]
  · rcases cm with _ | m
    · simp [objectsHandler, readAndParseObjects]
    · simp only [cacheHit, decide_eq_false_iff_not] at hmiss
      simp [objectsHandler, readAndParseObjects, hmiss]

/-- Witness for claim C10: a concrete non-array file with an empty
cache yields the empty array, cached. -/
theorem objects_get_non_array_witness :
    cacheHit ⟨none, none⟩ 0 = false ∧
    objectsHandler ⟨none, none⟩ (.present 0 .jsonNonArray) =
      .ok ([], ⟨some [], some 0⟩) :=
  ⟨rfl, objects_get_non_array_yields_empty ⟨none, none⟩ 0 rfl⟩

/-- Claim C9: with a configured connection, `GET /api/palworld/info`
returns the upstream's JSON body (an absent/falsy body becomes the
empty object), and whenever the upstream request fails it responds
with HTTP 502 whose `statusMessage` is the upstream's message when one
is available and non-empty, and the generic `"Unable to fetch info"`
otherwise. -/
theorem info_handler_contract (c : PalworldConfig)
    (h1 : c.host ≠ "") (h2 : c.port ≠ 0) (h3 : c.password ≠ "") :
    (∀ data, infoHandler (some c) (.success data) = .ok (data.getD ⟨none⟩)) ∧
    (∀ msg, msg ≠ "" →
      infoHandler (some c) (.failure (some msg)) = .error ⟨502, msg⟩) ∧
    infoHandler (some c) (.failure none) =
      .error ⟨502, "Unable to fetch info"⟩ ∧
    infoHandler (some c) (.failure (some "")) =
      .error ⟨502, "Unable to fetch info"⟩ := by
  have hc : ¬(c.host = "" ∨ c.port = 0 ∨ c.password = "") := by
    intro hcon
    rcases hcon with h | h | h
    · exact h1 h
    · exact h2 h
    · exact h3 h
  refine ⟨?_, ?_, ?_, ?_⟩
  · intro data
    simp [infoHandler, hc]
  · intro msg hmsg
    simp [infoHandler, hc, orDefault, hmsg]
  · simp [infoHandler, hc, orDefault]
  · simp [infoHandler, hc, orDefault]

/-- Witness for claim C9: a concrete configured connection returns the
upstream body on success and surfaces the upstream message in a 502 on
failure. -/
theorem info_handler_witness :
    ("127.0.0.1" : String) ≠ "" ∧ (3333 : ℕ) ≠ 0 ∧ ("secret" : String) ≠ "" ∧
    infoHandler (some ⟨"127.0.0.1", 3333, "secret"⟩)
        (.success (some ⟨some "my server"⟩)) = .ok ⟨some "my server"⟩ ∧
    infoHandler (some ⟨"127.0.0.1", 3333, "secret"⟩)
        (.failure (some "Unauthorized")) = .error ⟨502, "Unauthorized"⟩ ∧
    infoHandler (some ⟨"127.0.0.1", 3333, "secret"⟩) (.failure none) =
      .error ⟨502, "Unable to fetch info"⟩ := by
  have h := info_handler_contract ⟨"127.0.0.1", 3333, "secret"⟩
    (by decide) (by decide) (by decide)
  exact ⟨by decide, by decide, by decide,
    h.1 (some ⟨some "my server"⟩), h.2.1 "Unauthorized" (by decide), h.2.2.1⟩

end PalserverMap
